import Mathlib

/-!
# CampusRideShare backend — booking/seat-accounting and ride-cleanup model

A shallow embedding of the booking state machine, the seat-accounting
writes and the ride-lifecycle cleanup sweep of the campusrideshare
backend (`backend/database.py`, `backend/routes_bookings.py`,
`backend/routes_rides.py`).

The relational store is modelled as explicit lists of ride rows and
booking rows.  Each operation is translated from the SQL statements and
the surrounding Python of its source function:

* `SELECT ... WHERE id = ?`            becomes `List.find?` on the id,
* `UPDATE ... WHERE <cond>`            becomes `List.map` guarded by `<cond>`,
* `DELETE ... WHERE <cond>`            becomes `List.filter` by the negated
  condition,
* `cursor.rowcount`                    becomes `List.countP` of the condition.

Machine integers of the store (seat counts, timestamps) are modelled as
`Int` (Python ints are unbounded; SQLite INTEGER is signed).  Timestamps
(`departure_date + departure_time`, `updated_at`, `CURRENT_TIMESTAMP`)
are modelled as minutes on an `Int` axis, so the `'+30 minutes'` grace
period of the sweep is the constant 30 and the 1-day retention window is
1440.  Each source function that reads the wall clock
(`datetime.now()` / `CURRENT_TIMESTAMP`) takes the corresponding instant
as an explicit `now : Int` parameter.

Tables and columns none of the verified properties read (users,
messages, reviews, geocoding columns, prices, booking `updated_at`,
`created_at`) are elided; the `user_blocks` table is kept as a list of
(blocker, blocked) pairs because the booking-request route consults it.
-/

/-- Booking status column: CHECK (status IN
('pending','confirmed','cancelled','completed','rejected')). -/
inductive BookingStatus where
  | pending
  | confirmed
  | cancelled
  | completed
  | rejected
  deriving DecidableEq, Repr

/-- Ride status values the code writes: 'active' (default), 'full',
'completed', 'cancelled' and — in `mark_expired_rides_inactive` —
'expired'. -/
inductive RideStatus where
  | active
  | full
  | completed
  | cancelled
  | expired
  deriving DecidableEq, Repr

/-- The rides-table CHECK constraint of `_init_database`:
`status TEXT DEFAULT 'active' CHECK (status IN ('active', 'full',
'completed', 'cancelled'))`.  Note that 'expired' is not in the list. -/
def rideStatusAllowed : RideStatus → Bool
  | .active | .full | .completed | .cancelled => true
  | .expired => false

/-- A row of the `rides` table (columns the verified properties read). -/
structure Ride where
  id : Nat
  driverId : Nat
  /-- `departure_date + departure_time`, as minutes on the time axis. -/
  departure : Int
  totalSeats : Int
  seatsTaken : Int
  status : RideStatus
  updatedAt : Int
  deriving DecidableEq, Repr

/-- A row of the `bookings` table (columns the verified properties read). -/
structure Booking where
  id : Nat
  rideId : Nat
  passengerId : Nat
  status : BookingStatus
  deriving DecidableEq, Repr

/-- The relational store: `rides`, `bookings` and `user_blocks` rows,
plus the AUTOINCREMENT counter feeding new booking ids. -/
structure Store where
  rides : List Ride
  bookings : List Booking
  /-- `user_blocks` rows as (blocker_id, blocked_id). -/
  blocks : List (Nat × Nat)
  nextBookingId : Nat
  deriving DecidableEq, Repr

/-- `SELECT ... FROM rides WHERE id = ?` (shape of `get_ride_by_id`;
the JOIN to `users` always succeeds under the FK constraint and is
elided). -/
def findRide (s : Store) (rideId : Nat) : Option Ride :=
  s.rides.find? (fun r => r.id == rideId)

/-- `SELECT ... FROM bookings WHERE id = ?`. -/
def findBooking (s : Store) (bookingId : Nat) : Option Booking :=
  s.bookings.find? (fun b => b.id == bookingId)

/-- Grace period of `mark_expired_rides_inactive`: '+30 minutes'. -/
def gracePeriodMinutes : Int := 30

/-- Retention window of `delete_old_expired_rides`: `timedelta(days=1)`,
in minutes. -/
def retentionMinutes : Int := 1440

/-- Primary keys are unique and booking ids issued by AUTOINCREMENT are
fresh.  These facts are maintained by the SQLite PRIMARY KEY /
AUTOINCREMENT machinery, which the model does not re-implement; they are
hypotheses of the stateful theorems. -/
def WellFormed (s : Store) : Prop :=
  s.rides.Pairwise (fun r1 r2 => r1.id ≠ r2.id) ∧
  s.bookings.Pairwise (fun b1 b2 => b1.id ≠ b2.id) ∧
  ∀ b ∈ s.bookings, b.id < s.nextBookingId

instance (s : Store) : Decidable (WellFormed s) := by
  unfold WellFormed; infer_instance

/-! ## Booking operations (`database.py`) -/

/-- `Database.create_booking`: `INSERT INTO bookings (ride_id,
passenger_id) VALUES (?, ?)`.  The table carries
`UNIQUE (ride_id, passenger_id)` with no status scoping, so the INSERT
raises IntegrityError — and the method returns None — whenever any row
for the pair exists, whatever its status.  Otherwise the new row gets
the next AUTOINCREMENT id and the default status 'pending'. -/
def createBooking (s : Store) (rideId passengerId : Nat) :
    Option Nat × Store :=
  if s.bookings.any (fun b => b.rideId == rideId && b.passengerId == passengerId) then
    (none, s)
  else
    (some s.nextBookingId,
      { s with
        bookings := s.bookings ++ [⟨s.nextBookingId, rideId, passengerId, .pending⟩],
        nextBookingId := s.nextBookingId + 1 })

/-- `Database.check_existing_booking`: `SELECT id FROM bookings WHERE
ride_id = ? AND passenger_id = ? AND status NOT IN ('cancelled',
'rejected')`, non-empty result. -/
def checkExistingBooking (s : Store) (rideId passengerId : Nat) : Bool :=
  s.bookings.any (fun b =>
    b.rideId == rideId && b.passengerId == passengerId &&
    !(b.status == .cancelled || b.status == .rejected))

/-- `Database.is_user_blocked`: row (blocker_id, blocked_id) exists in
`user_blocks`. -/
def isUserBlocked (s : Store) (blockerId blockedId : Nat) : Bool :=
  s.blocks.any (fun pr => pr.1 == blockerId && pr.2 == blockedId)

/-- `Database.is_blocked_by` delegates to `is_user_blocked` with the
arguments swapped. -/
def isBlockedBy (s : Store) (userId otherUserId : Nat) : Bool :=
  isUserBlocked s otherUserId userId

/-- Classified outcome of the `book_ride` route (each constructor is one
of the route's flash-and-redirect exits). -/
inductive RequestResult where
  | success (bookingId : Nat)
  | rideNotFound
  | ownRide
  | rideUnavailable
  | rideFull
  | duplicateBooking
  | blockedUser
  | createFailed
  deriving DecidableEq, Repr

/-- The `book_ride` route (`routes_bookings.py`), i.e. RequestBooking:
look the ride up, refuse one's own ride, require status 'active' and
`total_seats - seats_taken > 0`, refuse when `check_existing_booking`
finds a non-(cancelled/rejected) booking for the pair, refuse when
either side blocked the other, then `create_booking` (whose None return
— the unscoped UNIQUE constraint firing — surfaces as the generic
'Unable to create booking' failure). -/
def bookRide (s : Store) (rideId actorId : Nat) : RequestResult × Store :=
  match findRide s rideId with
  | none => (.rideNotFound, s)
  | some ride =>
    if ride.driverId == actorId then (.ownRide, s)
    else if !(ride.status == .active) then (.rideUnavailable, s)
    else if ride.totalSeats - ride.seatsTaken ≤ 0 then (.rideFull, s)
    else if checkExistingBooking s rideId actorId then (.duplicateBooking, s)
    else if isUserBlocked s actorId ride.driverId then (.blockedUser, s)
    else if isBlockedBy s actorId ride.driverId then (.blockedUser, s)
    else
      match createBooking s rideId actorId with
      | (none, s1) => (.createFailed, s1)
      | (some bid, s1) => (.success bid, s1)

/-- The snapshot `Database.approve_booking` reads in its opening SELECT:
`SELECT b.ride_id, r.total_seats, r.seats_taken FROM bookings b JOIN
rides r ON b.ride_id = r.id WHERE b.id = ? AND b.status = 'pending'`. -/
structure ApproveRead where
  rideId : Nat
  totalSeats : Int
  seatsTaken : Int
  deriving DecidableEq, Repr

/-- The read phase of `Database.approve_booking` (the SELECT above). -/
def approveSelect (s : Store) (bookingId : Nat) : Option ApproveRead :=
  match s.bookings.find? (fun b => b.id == bookingId && b.status == .pending) with
  | none => none
  | some b =>
    match findRide s b.rideId with
    | none => none
    | some r => some ⟨b.rideId, r.totalSeats, r.seatsTaken⟩

/-- The write phase of `Database.approve_booking`: the three UPDATEs it
issues, with `new_seats_taken = seats_taken + 1` computed in Python from
the read snapshot (not by an atomic conditional UPDATE):
`UPDATE bookings SET status = 'confirmed' WHERE id = ?`,
`UPDATE rides SET seats_taken = ? WHERE id = ?`, and, when
`new_seats_taken >= total_seats`,
`UPDATE rides SET status = 'full' WHERE id = ?`. -/
def approveCommit (snap : ApproveRead) (bookingId : Nat) (now : Int)
    (s : Store) : Store :=
  let newSeats := snap.seatsTaken + 1
  { s with
    bookings := s.bookings.map (fun b =>
      if b.id == bookingId then { b with status := .confirmed } else b),
    rides := s.rides.map (fun r =>
      if r.id == snap.rideId then
        let r1 := { r with seatsTaken := newSeats, updatedAt := now }
        if snap.totalSeats ≤ newSeats then { r1 with status := .full } else r1
      else r) }

/-- The decision-and-write tail of `Database.approve_booking`, run
against a snapshot: no row → return False; `seats_taken >= total_seats`
→ return False with no writes; otherwise commit the three UPDATEs. -/
def approveFinish (s : Store) (bookingId : Nat) (now : Int)
    (snap : Option ApproveRead) : Bool × Store :=
  match snap with
  | none => (false, s)
  | some sn =>
    if sn.totalSeats ≤ sn.seatsTaken then (false, s)
    else (true, approveCommit sn bookingId now s)

/-- `Database.approve_booking` as one sequential unit: SELECT the
pending booking joined to its ride, check capacity, then issue the
UPDATEs.  `approveBooking_eq_finish_select` below checks this agrees
with the phase-split used for the concurrency analysis. -/
def approveBooking (s : Store) (bookingId : Nat) (now : Int) : Bool × Store :=
  match s.bookings.find? (fun b => b.id == bookingId && b.status == .pending) with
  | none => (false, s)
  | some b =>
    match findRide s b.rideId with
    | none => (false, s)
    | some r =>
      if r.totalSeats ≤ r.seatsTaken then (false, s)
      else (true, approveCommit ⟨b.rideId, r.totalSeats, r.seatsTaken⟩ bookingId now s)

/-- `Database.reject_booking`: `UPDATE bookings SET status = 'rejected'
WHERE id = ? AND status = 'pending'`; returns `rowcount > 0`. -/
def rejectBooking (s : Store) (bookingId : Nat) : Bool × Store :=
  (s.bookings.countP (fun b => b.id == bookingId && b.status == .pending) != 0,
   { s with bookings := s.bookings.map (fun b =>
      if b.id == bookingId && b.status == .pending then { b with status := .rejected }
      else b) })

/-- `Database.cancel_booking`: SELECT the booking joined to its ride
(status, ride_id, seats_taken); if no row, return False.  Then
`UPDATE bookings SET status = 'cancelled' WHERE id = ?`
(unconditionally), and only when the prior status was 'confirmed':
`UPDATE rides SET seats_taken = max(0, seats_taken-1), status = CASE
WHEN status = 'full' THEN 'active' ELSE status END WHERE id = ?`. -/
def cancelBookingDb (s : Store) (bookingId : Nat) (now : Int) : Bool × Store :=
  match s.bookings.find? (fun b => b.id == bookingId) with
  | none => (false, s)
  | some b =>
    match findRide s b.rideId with
    | none => (false, s)
    | some r =>
      let s1 := { s with bookings := s.bookings.map (fun b' =>
        if b'.id == bookingId then { b' with status := .cancelled } else b') }
      if b.status == .confirmed then
        let newSeats := max 0 (r.seatsTaken - 1)
        (true, { s1 with rides := s1.rides.map (fun r' =>
          if r'.id == b.rideId then
            { r' with
              seatsTaken := newSeats,
              status := if r'.status == .full then .active else r'.status,
              updatedAt := now }
          else r') })
      else (true, s1)

/-- Classified outcome of the `cancel_booking` route. -/
inductive CancelResult where
  | ok
  | notFound
  | forbidden
  | invalidState
  | dbFailed
  deriving DecidableEq, Repr

/-- The `cancel_booking` route (`routes_bookings.py`): fetch the booking
(joined to its ride), require the actor to be the passenger or the
ride's driver, require status in ('pending', 'confirmed'), then call
`Database.cancel_booking`. -/
def cancelBookingRoute (s : Store) (bookingId actorId : Nat) (now : Int) :
    CancelResult × Store :=
  match s.bookings.find? (fun b => b.id == bookingId) with
  | none => (.notFound, s)
  | some b =>
    match findRide s b.rideId with
    | none => (.notFound, s)
    | some r =>
      let isPassenger := b.passengerId == actorId
      let isDriver := r.driverId == actorId
      if !isPassenger && !isDriver then (.forbidden, s)
      else if !(b.status == .pending || b.status == .confirmed) then (.invalidState, s)
      else
        match cancelBookingDb s bookingId now with
        | (false, s1) => (.dbFailed, s1)
        | (true, s1) => (.ok, s1)

/-- The `api_cancel_booking` route (`routes_api.py`), the second live
CancelBooking entry point (the `api_bp` blueprint is registered in
`app.py`): fetch the booking via `get_booking_by_id` (a JOIN to its
ride), require the actor to be the booking's passenger or an admin, and
then call `Database.cancel_booking` with NO status check — unlike the
web route, nothing stops it from rewriting a 'completed' or 'rejected'
booking to 'cancelled'. -/
def apiCancelBooking (s : Store) (bookingId actorId : Nat) (isAdmin : Bool)
    (now : Int) : CancelResult × Store :=
  match s.bookings.find? (fun b => b.id == bookingId) with
  | none => (.notFound, s)
  | some b =>
    match findRide s b.rideId with
    | none => (.notFound, s)
    | some _ =>
      if !(b.passengerId == actorId) && !isAdmin then (.forbidden, s)
      else
        match cancelBookingDb s bookingId now with
        | (false, s1) => (.dbFailed, s1)
        | (true, s1) => (.ok, s1)

/-! ## Ride lifecycle operations (`database.py`) -/

/-- `Database.cancel_ride`: `UPDATE rides SET status = 'cancelled' WHERE
id = ?`, then `UPDATE bookings SET status = 'cancelled' WHERE ride_id =
? AND status IN ('pending', 'confirmed')`; returns the second
statement's `rowcount > 0`.  Note: `seats_taken` is not touched. -/
def cancelRide (s : Store) (rideId : Nat) (now : Int) : Bool × Store :=
  (s.bookings.countP (fun b =>
      b.rideId == rideId && (b.status == .pending || b.status == .confirmed)) != 0,
   { s with
     rides := s.rides.map (fun r =>
       if r.id == rideId then { r with status := .cancelled, updatedAt := now } else r),
     bookings := s.bookings.map (fun b =>
       if b.rideId == rideId && (b.status == .pending || b.status == .confirmed) then
         { b with status := .cancelled }
       else b) })

/-- `Database.mark_ride_completed`: `UPDATE rides SET status =
'completed' WHERE id = ?`, then `UPDATE bookings SET status =
'completed' WHERE ride_id = ? AND status = 'confirmed'`; returns the
second statement's `rowcount > 0`. -/
def markRideCompleted (s : Store) (rideId : Nat) (now : Int) : Bool × Store :=
  (s.bookings.countP (fun b => b.rideId == rideId && b.status == .confirmed) != 0,
   { s with
     rides := s.rides.map (fun r =>
       if r.id == rideId then { r with status := .completed, updatedAt := now } else r),
     bookings := s.bookings.map (fun b =>
       if b.rideId == rideId && b.status == .confirmed then { b with status := .completed }
       else b) })

/-! ## Cleanup sweep (`database.py`) -/

/-- The WHERE predicate of the MarkExpired bulk UPDATE: `status IN
('active', 'full') AND datetime(departure_date || ' ' ||
departure_time, '+30 minutes') < datetime(now)`. -/
def rideExpiryDue (now : Int) (r : Ride) : Bool :=
  (r.status == .active || r.status == .full) &&
    (r.departure + gracePeriodMinutes < now)

/-- Row-level semantics of `Database.mark_expired_rides_inactive`:
`UPDATE rides SET status = 'expired', updated_at = CURRENT_TIMESTAMP
WHERE <rideExpiryDue>`; returns `rowcount`.  This models what the UPDATE
statement writes; whether the schema's CHECK constraint
(`rideStatusAllowed`) admits the written value is treated separately —
see the C7 theorem, which shows it does not. -/
def markExpiredRidesInactive (s : Store) (now : Int) : Nat × Store :=
  (s.rides.countP (rideExpiryDue now),
   { s with rides := s.rides.map (fun r =>
      if rideExpiryDue now r then { r with status := .expired, updatedAt := now }
      else r) })

/-- `Database.delete_old_expired_rides`: SELECT the ids of rides with
`status = 'expired' AND updated_at < now - 1 day`; if none, return 0
deletions; else delete the dependent bookings (messages and reviews are
elided) and then the ride rows by id, returning the ride DELETE's
`rowcount`. -/
def deleteOldExpiredRides (s : Store) (now : Int) : Nat × Store :=
  let oneDayAgo := now - retentionMinutes
  let ridesToDelete := s.rides.filter (fun r =>
    r.status == .expired && r.updatedAt < oneDayAgo)
  if ridesToDelete.isEmpty then (0, s)
  else
    let rideIds := ridesToDelete.map Ride.id
    (s.rides.countP (fun r => rideIds.contains r.id),
     { s with
       rides := s.rides.filter (fun r => !(rideIds.contains r.id)),
       bookings := s.bookings.filter (fun b => !(rideIds.contains b.rideId)) })

/-- The two counters `Database.run_ride_cleanup` returns. -/
structure CleanupResult where
  markedExpired : Nat
  deletedRides : Nat
  deriving DecidableEq, Repr

/-- `Database.run_ride_cleanup`: MarkExpired then DeleteStale.  Each
phase reads `datetime.now()` itself, hence the two time parameters. -/
def runRideCleanup (s : Store) (tMark tDelete : Int) : CleanupResult × Store :=
  let m := markExpiredRidesInactive s tMark
  let d := deleteOldExpiredRides m.2 tDelete
  (⟨m.1, d.1⟩, d.2)

/-! ## The operations of §4.1/§4.2 as one step type -/

/-- The booking and ride-lifecycle operations quantified over by the
invariant and temporal claims. -/
inductive Op where
  | requestBooking (rideId actorId : Nat)
  | approveBooking (bookingId : Nat)
  | rejectBooking (bookingId : Nat)
  /-- CancelBooking through the status-guarded web route
  (`routes_bookings.py`). -/
  | cancelBooking (bookingId actorId : Nat)
  /-- CancelBooking through the API endpoint (`routes_api.py`), which
  performs no status check. -/
  | apiCancelBooking (bookingId actorId : Nat) (isAdmin : Bool)
  | cancelRide (rideId : Nat)
  | completeRide (rideId : Nat)
  | cleanupSweep
  deriving DecidableEq, Repr

/-- Effect of one operation on the store (result values dropped). -/
def applyOp (now : Int) : Op → Store → Store
  | .requestBooking rid aid, s => (bookRide s rid aid).2
  | .approveBooking bid, s => (approveBooking s bid now).2
  | .rejectBooking bid, s => (rejectBooking s bid).2
  | .cancelBooking bid aid, s => (cancelBookingRoute s bid aid now).2
  | .apiCancelBooking bid aid adm, s => (apiCancelBooking s bid aid adm now).2
  | .cancelRide rid, s => (cancelRide s rid now).2
  | .completeRide rid, s => (markRideCompleted s rid now).2
  | .cleanupSweep, s => (runRideCleanup s now now).2

/-- The cached count the core contract is about: the number of this
ride's bookings whose status is 'confirmed' or 'completed'. -/
def seatCount (s : Store) (rideId : Nat) : Int :=
  ((s.bookings.countP (fun b =>
      b.rideId == rideId && (b.status == .confirmed || b.status == .completed))) : Int)

/-- The §3 relationship invariant: every ride's `seats_taken` equals its
confirmed-plus-completed booking count. -/
def seatInvariant (s : Store) : Prop :=
  ∀ r ∈ s.rides, r.seatsTaken = seatCount s r.id

instance (s : Store) : Decidable (seatInvariant s) := by
  unfold seatInvariant; infer_instance

/-- Terminal booking statuses per §4.1: rejected, cancelled, completed. -/
def isTerminalBooking : BookingStatus → Bool
  | .rejected | .cancelled | .completed => true
  | .pending | .confirmed => false

/-! ## Generic list lemmas for keyed rows

SQL rows are addressed by primary key; these lemmas relate `find?`,
`map`-style UPDATEs and `countP` on lists whose `key` values are
pairwise distinct. -/

theorem map_self_of_mem {α : Type _} {f : α → α} :
    ∀ {l : List α}, (∀ x ∈ l, f x = x) → l.map f = l := by
  intro l h
  induction l with
  | nil => rfl
  | cons a t ih =>
    simp only [List.map_cons]
    rw [h a (List.mem_cons_self a t),
      ih (fun x hx => h x (List.mem_cons_of_mem a hx))]

theorem mem_eq_of_key_eq {α : Type _} (key : α → Nat) :
    ∀ {l : List α}, l.Pairwise (fun x y => key x ≠ key y) →
      ∀ {a b : α}, a ∈ l → b ∈ l → key a = key b → a = b := by
  intro l hp a b ha hb hk
  induction l with
  | nil => cases ha
  | cons h t ih =>
    rcases List.pairwise_cons.mp hp with ⟨hhead, htail⟩
    rcases List.mem_cons.mp ha with rfl | hat
    · rcases List.mem_cons.mp hb with rfl | hbt
      · rfl
      · exact absurd hk (hhead b hbt)
    · rcases List.mem_cons.mp hb with rfl | hbt
      · exact absurd hk.symm (hhead a hat)
      · exact ih htail hat hbt

theorem find?_eq_some_of_key {α : Type _} (key : α → Nat) (p : α → Bool) :
    ∀ (l : List α), l.Pairwise (fun x y => key x ≠ key y) →
      ∀ a ∈ l, p a = true → (∀ x, p x = true → key x = key a) →
      l.find? p = some a := by
  intro l hp a ha hpa hkey
  induction l with
  | nil => cases ha
  | cons h t ih =>
    rcases List.pairwise_cons.mp hp with ⟨hhead, htail⟩
    rcases hph : p h with _ | _
    · have hat : a ∈ t := by
        rcases List.mem_cons.mp ha with rfl | hat
        · rw [hpa] at hph; cases hph
        · exact hat
      rw [List.find?_cons_of_neg _ (by simp [hph]), ih htail hat]
    · have : h = a := by
        rcases List.mem_cons.mp ha with rfl | hat
        · rfl
        · exact absurd (hkey h hph) (hhead a hat)
      rw [List.find?_cons_of_pos _ hph, this]

theorem find?_map_update {α : Type _} (key : α → Nat) (g : α → α)
    (hg : ∀ x, key (g x) = key x) :
    ∀ (l : List α), l.Pairwise (fun x y => key x ≠ key y) →
      ∀ a ∈ l,
        (l.map (fun x => if key x == key a then g x else x)).find?
          (fun x => key x == key a) = some (g a) := by
  intro l hp a ha
  induction l with
  | nil => cases ha
  | cons h t ih =>
    rcases List.pairwise_cons.mp hp with ⟨hhead, htail⟩
    simp only [List.map_cons]
    rcases hkh : (key h == key a) with _ | _
    · have hat : a ∈ t := by
        rcases List.mem_cons.mp ha with rfl | hat
        · simp at hkh
        · exact hat
      rw [if_neg Bool.false_ne_true,
        List.find?_cons_of_neg _ (by simp; simpa using hkh), ih htail hat]
    · have hha : h = a := by
        rcases List.mem_cons.mp ha with rfl | hat
        · rfl
        · exact absurd (by simpa using hkh) (hhead a hat)
      subst hha
      rw [if_pos rfl, List.find?_cons_of_pos _ (by simp [hg])]

theorem countP_map_update {α : Type _} (key : α → Nat) (g : α → α)
    (p : α → Bool) :
    ∀ (l : List α), l.Pairwise (fun x y => key x ≠ key y) →
      ∀ a ∈ l,
        (l.map (fun x => if key x == key a then g x else x)).countP p
            + (if p a then 1 else 0)
          = l.countP p + (if p (g a) then 1 else 0) := by
  intro l hp a ha
  induction l with
  | nil => cases ha
  | cons h t ih =>
    rcases List.pairwise_cons.mp hp with ⟨hhead, htail⟩
    simp only [List.map_cons]
    rcases hkh : (key h == key a) with _ | _
    · have hat : a ∈ t := by
        rcases List.mem_cons.mp ha with rfl | hat
        · simp at hkh
        · exact hat
      rw [if_neg Bool.false_ne_true, List.countP_cons, List.countP_cons]
      have := ih htail hat
      omega
    · have hha : h = a := by
        rcases List.mem_cons.mp ha with rfl | hat
        · rfl
        · exact absurd (by simpa using hkh) (hhead a hat)
      subst hha
      have htid : t.map (fun x => if key x == key h then g x else x) = t := by
        apply map_self_of_mem
        intro x hx
        rw [if_neg]
        simp only [beq_iff_eq]
        exact fun hxk => (hhead x hx) hxk.symm
      rw [if_pos rfl, htid, List.countP_cons, List.countP_cons]
      omega

/-! ## Facts about `approve_booking` -/

theorem wellFormed_find_booking {s : Store} (hW : WellFormed s)
    {b : Booking} (hb : b ∈ s.bookings) :
    s.bookings.find? (fun b' => b'.id == b.id) = some b := by
  apply find?_eq_some_of_key Booking.id _ _ hW.2.1 b hb (by simp)
  intro x hx
  simpa using hx

theorem wellFormed_find_pending {s : Store} (hW : WellFormed s)
    {b : Booking} (hb : b ∈ s.bookings) (hbs : b.status = .pending) :
    s.bookings.find? (fun b' => b'.id == b.id && b'.status == .pending) = some b := by
  apply find?_eq_some_of_key Booking.id _ _ hW.2.1 b hb (by simp [hbs])
  intro x hx
  simp only [Bool.and_eq_true, beq_iff_eq] at hx
  exact hx.1

theorem wellFormed_find_ride {s : Store} (hW : WellFormed s)
    {r : Ride} (hr : r ∈ s.rides) {rid : Nat} (hrid : r.id = rid) :
    findRide s rid = some r := by
  subst hrid
  apply find?_eq_some_of_key Ride.id _ _ hW.1 r hr (by simp)
  intro x hx
  simpa using hx

/-- C2: For every booking in status 'pending' on a ride with
seats_taken < total_seats, ApproveBooking succeeds and, in one atomic
unit, sets the booking's status to 'confirmed', increments the ride's
seats_taken by exactly 1, and sets the ride's status to 'full' exactly
when the new seats_taken equals total_seats (otherwise the ride's
status is unchanged). -/
theorem approve_pending_capacity_ok
    (s : Store) (now : Int) (b : Booking) (r : Ride)
    (hW : WellFormed s)
    (hb : b ∈ s.bookings) (hbs : b.status = .pending)
    (hr : r ∈ s.rides) (hrid : r.id = b.rideId)
    (hcap : r.seatsTaken < r.totalSeats) :
    (approveBooking s b.id now).1 = true ∧
    findBooking (approveBooking s b.id now).2 b.id
      = some { b with status := .confirmed } ∧
    findRide (approveBooking s b.id now).2 r.id
      = some { r with
          seatsTaken := r.seatsTaken + 1,
          updatedAt := now,
          status := if r.seatsTaken + 1 = r.totalSeats then .full else r.status } := by
  have hfb := wellFormed_find_pending hW hb hbs
  have hfr : findRide s b.rideId = some r := wellFormed_find_ride hW hr hrid
  unfold approveBooking
  rw [hfb]
  dsimp only
  rw [hfr]
  dsimp only
  rw [if_neg (not_le.mpr hcap)]
  refine ⟨rfl, ?_, ?_⟩
  · unfold approveCommit findBooking
    dsimp only
    exact find?_map_update Booking.id (fun x => { x with status := .confirmed })
      (fun x => rfl) s.bookings hW.2.1 b hb
  · unfold approveCommit findRide
    dsimp only
    rw [← hrid]
    have := find?_map_update Ride.id
      (fun x =>
        let x1 := { x with seatsTaken := r.seatsTaken + 1, updatedAt := now }
        if r.totalSeats ≤ r.seatsTaken + 1 then { x1 with status := .full } else x1)
      (fun x => by dsimp only; split <;> rfl) s.rides hW.1 r hr
    rw [this]
    dsimp only
    by_cases hfull : r.seatsTaken + 1 = r.totalSeats
    · rw [if_pos (show r.totalSeats ≤ r.seatsTaken + 1 by omega), if_pos hfull]
    · rw [if_neg (show ¬ r.totalSeats ≤ r.seatsTaken + 1 by omega), if_neg hfull]

/-- Witness for C2 at the spec's §8 scenario shape: ride with
total_seats = 4, seats_taken = 0, one pending booking; approving yields
'confirmed', seats_taken = 1 and status still 'active'. -/
theorem approve_pending_capacity_ok_witness :
    let s : Store :=
      { rides := [⟨1, 10, 0, 4, 0, .active, 0⟩],
        bookings := [⟨1, 1, 2, .pending⟩],
        blocks := [], nextBookingId := 2 }
    let b : Booking := ⟨1, 1, 2, .pending⟩
    let r : Ride := ⟨1, 10, 0, 4, 0, .active, 0⟩
    (approveBooking s b.id 5).1 = true ∧
    findBooking (approveBooking s b.id 5).2 b.id
      = some { b with status := .confirmed } ∧
    findRide (approveBooking s b.id 5).2 r.id
      = some { r with
          seatsTaken := r.seatsTaken + 1,
          updatedAt := 5,
          status := if r.seatsTaken + 1 = r.totalSeats then .full else r.status } :=
  approve_pending_capacity_ok _ 5 _ _ (by decide) (by decide) rfl
    (by decide) rfl (by decide)

/-- C4: if at approval time the ride's seats_taken is at least
total_seats, ApproveBooking reports failure and leaves the whole store
unchanged (in particular the booking stays 'pending' and the ride's
seats_taken and status are untouched). -/
theorem approve_capacity_exhausted_noop
    (s : Store) (now : Int) (b : Booking) (r : Ride)
    (hW : WellFormed s)
    (hb : b ∈ s.bookings) (hbs : b.status = .pending)
    (hr : r ∈ s.rides) (hrid : r.id = b.rideId)
    (hcap : r.totalSeats ≤ r.seatsTaken) :
    approveBooking s b.id now = (false, s) := by
  have hfb := wellFormed_find_pending hW hb hbs
  have hfr : findRide s b.rideId = some r := wellFormed_find_ride hW hr hrid
  unfold approveBooking
  rw [hfb]
  dsimp only
  rw [hfr]
  dsimp only
  rw [if_pos hcap]

/-- Witness for C4: a full ride (1 of 1 seats taken) with a second
pending booking; approval returns False and the store is untouched. -/
theorem approve_capacity_exhausted_noop_witness :
    let s : Store :=
      { rides := [⟨1, 10, 0, 1, 1, .full, 0⟩],
        bookings := [⟨1, 1, 2, .confirmed⟩, ⟨2, 1, 3, .pending⟩],
        blocks := [], nextBookingId := 3 }
    approveBooking s 2 9 = (false, s) :=
  approve_capacity_exhausted_noop _ 9 ⟨2, 1, 3, .pending⟩ ⟨1, 10, 0, 1, 1, .full, 0⟩
    (by decide) (by decide) rfl (by decide) rfl (by decide)

/-- C5: For every booking in status 'pending' or 'confirmed',
CancelBooking (by the passenger or the ride's driver) sets its status to
'cancelled'; if the prior status was 'confirmed' it also, atomically
with the status flip, decrements the ride's seats_taken by 1 flooring at
0 and reverts the ride's status from 'full' to 'active' when it was
'full'; if the prior status was 'pending', the ride rows are untouched. -/
theorem cancel_booking_releases_seat
    (s : Store) (now : Int) (actorId : Nat) (b : Booking) (r : Ride)
    (hW : WellFormed s)
    (hb : b ∈ s.bookings) (hbs : b.status = .pending ∨ b.status = .confirmed)
    (hr : r ∈ s.rides) (hrid : r.id = b.rideId)
    (hact : b.passengerId = actorId ∨ r.driverId = actorId) :
    (cancelBookingRoute s b.id actorId now).1 = .ok ∧
    findBooking (cancelBookingRoute s b.id actorId now).2 b.id
      = some { b with status := .cancelled } ∧
    (b.status = .pending → (cancelBookingRoute s b.id actorId now).2.rides = s.rides) ∧
    (b.status = .confirmed →
      findRide (cancelBookingRoute s b.id actorId now).2 r.id
        = some { r with
            seatsTaken := max 0 (r.seatsTaken - 1),
            status := if r.status = .full then .active else r.status,
            updatedAt := now }) := by
  have hfb := wellFormed_find_booking hW hb
  have hfr : findRide s b.rideId = some r := wellFormed_find_ride hW hr hrid
  have hbmap := find?_map_update Booking.id (fun x => { x with status := .cancelled })
    (fun x => rfl) s.bookings hW.2.1 b hb
  unfold cancelBookingRoute
  rw [hfb]
  dsimp only
  rw [hfr]
  dsimp only
  rw [if_neg (by rcases hact with h | h <;> simp [h])]
  rw [if_neg (by rcases hbs with h | h <;> simp [h])]
  unfold cancelBookingDb
  rw [hfb]
  dsimp only
  rw [hfr]
  dsimp only
  rcases hbs with hp | hc
  · rw [if_neg (by simp [hp])]
    refine ⟨rfl, ?_, fun _ => rfl, ?_⟩
    · unfold findBooking
      exact hbmap
    · intro hcon
      rw [hp] at hcon
      cases hcon
  · rw [if_pos (by simp [hc])]
    refine ⟨rfl, ?_, ?_, fun _ => ?_⟩
    · unfold findBooking
      exact hbmap
    · intro hcon
      rw [hc] at hcon
      cases hcon
    · unfold findRide
      dsimp only
      rw [← hrid]
      have := find?_map_update Ride.id
        (fun x => { x with
          seatsTaken := max 0 (r.seatsTaken - 1),
          status := if x.status == .full then .active else x.status,
          updatedAt := now })
        (fun x => rfl) s.rides hW.1 r hr
      rw [this]
      by_cases hf : r.status = RideStatus.full <;> simp [hf]

/-- Witness for C5: a full 2-seat ride with two confirmed bookings; the
passenger of booking 1 cancels it: the booking becomes 'cancelled',
seats_taken drops to 1 and the ride reverts from 'full' to 'active'. -/
theorem cancel_booking_releases_seat_witness :
    let s : Store :=
      { rides := [⟨1, 10, 0, 2, 2, .full, 0⟩],
        bookings := [⟨1, 1, 2, .confirmed⟩, ⟨2, 1, 3, .confirmed⟩],
        blocks := [], nextBookingId := 3 }
    let b : Booking := ⟨1, 1, 2, .confirmed⟩
    let r : Ride := ⟨1, 10, 0, 2, 2, .full, 0⟩
    (cancelBookingRoute s b.id 2 7).1 = .ok ∧
    findBooking (cancelBookingRoute s b.id 2 7).2 b.id
      = some { b with status := .cancelled } ∧
    (b.status = .pending → (cancelBookingRoute s b.id 2 7).2.rides = s.rides) ∧
    (b.status = .confirmed →
      findRide (cancelBookingRoute s b.id 2 7).2 r.id
        = some { r with
            seatsTaken := max 0 (r.seatsTaken - 1),
            status := if r.status = .full then .active else r.status,
            updatedAt := 7 }) :=
  cancel_booking_releases_seat _ 7 2 _ _ (by decide) (by decide)
    (Or.inr rfl) (by decide) rfl (Or.inl rfl)

/-- Validation of the phase split: `Database.approve_booking` run alone
is exactly its SELECT phase followed by its check-and-commit tail. -/
theorem approveBooking_eq_finish_select (s : Store) (bid : Nat) (now : Int) :
    approveBooking s bid now = approveFinish s bid now (approveSelect s bid) := by
  unfold approveBooking approveSelect approveFinish
  cases hfb : s.bookings.find? (fun b => b.id == bid && b.status == BookingStatus.pending) with
  | none => rfl
  | some b =>
    dsimp only
    cases hfr : findRide s b.rideId with
    | none => rfl
    | some r => rfl

/-- The racy schedule read-committed isolation permits for two
overlapping `approve_booking` transactions: both run their SELECT (and
the Python capacity check on that snapshot) before either transaction
commits its UPDATEs; the commits then apply in order.  This is the
schedule obtained on PostgreSQL read committed (the second UPDATE waits
on the row lock, then proceeds with the stale Python-computed
`new_seats_taken`) and on SQLite when the second writer's busy wait
succeeds after the first commit. -/
def approveRaceReadsFirst (s : Store) (bid1 bid2 : Nat) (now : Int) :
    Bool × Bool × Store :=
  let snap1 := approveSelect s bid1
  let snap2 := approveSelect s bid2
  let r1 := approveFinish s bid1 now snap1
  let r2 := approveFinish r1.2 bid2 now snap2
  (r1.1, r2.1, r2.2)

/-- The §8 race configuration: one ride with total_seats = 1,
seats_taken = 0, two pending bookings. -/
def raceStore : Store :=
  { rides := [⟨1, 10, 0, 1, 0, .active, 0⟩],
    bookings := [⟨1, 1, 2, .pending⟩, ⟨2, 1, 3, .pending⟩],
    blocks := [], nextBookingId := 3 }

/-- C3 (code_bug evidence): on the last-seat configuration there is a
legal concurrent schedule — both transactions read before either
commits — under which BOTH ApproveBooking invocations succeed: both
bookings end 'confirmed' while seats_taken ends at 1, instead of the
required exactly-one-success / one-CapacityExceeded outcome.  The
read-check-write is not atomic (no conditional UPDATE, no row lock
around the SELECT), so the capacity check is not authoritative. -/
theorem approve_race_overshoots_capacity :
    (approveRaceReadsFirst raceStore 1 2 0).1 = true ∧
    (approveRaceReadsFirst raceStore 1 2 0).2.1 = true ∧
    ((approveRaceReadsFirst raceStore 1 2 0).2.2.bookings.countP
      (fun b => b.status == .confirmed)) = 2 ∧
    (findRide (approveRaceReadsFirst raceStore 1 2 0).2.2 1).map Ride.seatsTaken
      = some 1 ∧
    (findRide (approveRaceReadsFirst raceStore 1 2 0).2.2 1).map Ride.status
      = some .full := by
  decide

/-- Store for the rebooking scenario: passenger 2's only booking on the
active, half-empty ride 1 is 'cancelled'; nobody blocks anybody. -/
def rebookStore : Store :=
  { rides := [⟨1, 1, 100, 2, 0, .active, 0⟩],
    bookings := [⟨1, 1, 2, .cancelled⟩],
    blocks := [], nextBookingId := 2 }

/-- C6 (code_bug evidence): all of the claim's preconditions hold —
every prior booking of passenger 2 on ride 1 is terminal, the ride is
active with seats free, the passenger is not the driver, nobody is
blocked, and even `check_existing_booking` agrees there is no live
duplicate — yet RequestBooking fails with the generic create failure
and creates no booking, because the schema's UNIQUE (ride_id,
passenger_id) constraint is not scoped to non-terminal bookings and
aborts the INSERT. -/
theorem rebooking_after_terminal_fails :
    (∀ b ∈ rebookStore.bookings,
        b.passengerId = 2 → isTerminalBooking b.status = true) ∧
    (findRide rebookStore 1).map Ride.status = some .active ∧
    checkExistingBooking rebookStore 1 2 = false ∧
    isUserBlocked rebookStore 2 1 = false ∧
    isBlockedBy rebookStore 2 1 = false ∧
    bookRide rebookStore 1 2 = (.createFailed, rebookStore) := by
  decide

/-- Store for the expiry scenario: ride 1 is 'active' with departure at
time 0; one pending booking rides along. -/
def expiryStore : Store :=
  { rides := [⟨1, 1, 0, 3, 0, .active, 0⟩],
    bookings := [⟨1, 1, 2, .pending⟩],
    blocks := [], nextBookingId := 2 }

/-- C7 (code_bug evidence): at time 150 — 2.5 hours past the departure,
well beyond the 30-minute grace period — ride 1 satisfies the
MarkExpired predicate and the bulk UPDATE writes status 'expired' and
`updated_at = now` to it while leaving every booking untouched; but
'expired' is not among the values of the rides-table CHECK constraint
(`rideStatusAllowed`), so on the schema `_init_database` creates this
UPDATE raises IntegrityError and the transaction rolls back: the code
can never actually mark a ride expired. -/
theorem mark_expired_writes_value_check_rejects :
    rideExpiryDue 150 ⟨1, 1, 0, 3, 0, .active, 0⟩ = true ∧
    (markExpiredRidesInactive expiryStore 150).1 = 1 ∧
    ((markExpiredRidesInactive expiryStore 150).2.rides.map Ride.status)
      = [RideStatus.expired] ∧
    rideStatusAllowed RideStatus.expired = false ∧
    (markExpiredRidesInactive expiryStore 150).2.bookings = expiryStore.bookings := by
  decide

/-- Store on which CancelRide breaks the seat-count contract: ride 1 has
seats_taken = 1 backed by exactly one confirmed booking. -/
def cancelRideStore : Store :=
  { rides := [⟨1, 10, 0, 2, 1, .active, 0⟩],
    bookings := [⟨1, 1, 2, .confirmed⟩],
    blocks := [], nextBookingId := 2 }

/-- C1 counterexample: the invariant `seats_taken = #(confirmed ∪
completed bookings)` holds on `cancelRideStore` and the store is
well-formed, yet after CancelRide it fails: `cancel_ride` cancels the
confirmed booking without touching `seats_taken`, which stays 1 while
the count drops to 0. -/
theorem cancel_ride_breaks_seat_invariant :
    seatInvariant cancelRideStore ∧
    WellFormed cancelRideStore ∧
    ¬ seatInvariant (applyOp 0 (Op.cancelRide 1) cancelRideStore) := by
  decide

/-! ## Facts about the cleanup sweep -/

/-- After the MarkExpired UPDATE has processed a row, the row no longer
satisfies the MarkExpired predicate (it is 'expired' if it did, and
unchanged if it did not). -/
theorem rideExpiryDue_after_mark (now : Int) (r : Ride) :
    rideExpiryDue now
      (if rideExpiryDue now r then { r with status := .expired, updatedAt := now } else r)
      = false := by
  by_cases h : rideExpiryDue now r = true
  · rw [if_pos h]
    simp [rideExpiryDue]
  · rw [if_neg h]
    simpa using h

theorem mem_rides_markExpired {s : Store} {now : Int} {r : Ride}
    (hr : r ∈ (markExpiredRidesInactive s now).2.rides) :
    ∃ x ∈ s.rides,
      r = if rideExpiryDue now x then { x with status := .expired, updatedAt := now }
          else x := by
  unfold markExpiredRidesInactive at hr
  dsimp only at hr
  rcases List.mem_map.mp hr with ⟨x, hx, hxr⟩
  exact ⟨x, hx, hxr.symm⟩

/-- DeleteStale only removes ride rows. -/
theorem mem_rides_deleteStale {u : Store} {now : Int} {r : Ride}
    (hr : r ∈ (deleteOldExpiredRides u now).2.rides) : r ∈ u.rides := by
  unfold deleteOldExpiredRides at hr
  dsimp only at hr
  split at hr
  · exact hr
  · exact (List.mem_filter.mp hr).1

/-- No ride surviving DeleteStale still satisfies the stale-expiry
condition: a survivor either was spared because nothing matched at all,
or its id is absent from the deleted-id list while every matching row's
id is on that list. -/
theorem deleteStale_survivor_not_stale {u : Store} {now : Int} {r : Ride}
    (hr : r ∈ (deleteOldExpiredRides u now).2.rides) :
    (r.status == RideStatus.expired && r.updatedAt < now - retentionMinutes) = false := by
  unfold deleteOldExpiredRides at hr
  dsimp only at hr
  split at hr
  · next hempty =>
    have hnil := List.isEmpty_iff.mp hempty
    have := List.filter_eq_nil_iff.mp hnil r hr
    simpa using this
  · next hempty =>
    rcases List.mem_filter.mp hr with ⟨hmem, hkeep⟩
    by_contra hcond
    rw [Bool.not_eq_false] at hcond
    have hcond' : (fun r' => r'.status == RideStatus.expired &&
        decide (r'.updatedAt < now - retentionMinutes)) r = true := hcond
    have hrdel : r ∈ u.rides.filter (fun r' => r'.status == RideStatus.expired &&
        decide (r'.updatedAt < now - retentionMinutes)) :=
      List.mem_filter.mpr ⟨hmem, hcond'⟩
    have hid : r.id ∈ (u.rides.filter (fun r' => r'.status == RideStatus.expired &&
        decide (r'.updatedAt < now - retentionMinutes))).map Ride.id :=
      List.mem_map_of_mem Ride.id hrdel
    have : ((u.rides.filter (fun r' => r'.status == RideStatus.expired &&
        decide (r'.updatedAt < now - retentionMinutes))).map Ride.id).contains r.id
        = true :=
      List.elem_eq_true_of_mem hid
    rw [this] at hkeep
    simp at hkeep

/-- C8: Running the cleanup sweep (`run_ride_cleanup`: MarkExpired then
DeleteStale) twice in succession with no intervening mutations and no
clock advance makes zero state changes on the second run: the second
run marks zero rides expired, deletes zero rides, and the store after
the second run equals the store after the first. -/
theorem cleanup_idempotent (s : Store) (t : Int) :
    (runRideCleanup (runRideCleanup s t t).2 t t).1.markedExpired = 0 ∧
    (runRideCleanup (runRideCleanup s t t).2 t t).1.deletedRides = 0 ∧
    (runRideCleanup (runRideCleanup s t t).2 t t).2 = (runRideCleanup s t t).2 := by
  have hnodue : ∀ r ∈ (runRideCleanup s t t).2.rides, rideExpiryDue t r = false := by
    intro r hr
    have hmark : r ∈ (markExpiredRidesInactive s t).2.rides :=
      mem_rides_deleteStale hr
    rcases mem_rides_markExpired hmark with ⟨x, _, hxr⟩
    rw [hxr]
    exact rideExpiryDue_after_mark t x
  have hnostale : ∀ r ∈ (runRideCleanup s t t).2.rides,
      (r.status == RideStatus.expired && r.updatedAt < t - retentionMinutes) = false :=
    fun r hr => deleteStale_survivor_not_stale hr
  have hmark2 : markExpiredRidesInactive (runRideCleanup s t t).2 t
      = (0, (runRideCleanup s t t).2) := by
    unfold markExpiredRidesInactive
    have hcount : (runRideCleanup s t t).2.rides.countP (rideExpiryDue t) = 0 :=
      List.countP_eq_zero.mpr (fun r hr => by simp [hnodue r hr])
    have hmap : (runRideCleanup s t t).2.rides.map
        (fun r => if rideExpiryDue t r then { r with status := .expired, updatedAt := t }
                  else r) = (runRideCleanup s t t).2.rides :=
      map_self_of_mem (fun r hr => if_neg (by simp [hnodue r hr]))
    rw [hcount, hmap]
  have hdel2 : deleteOldExpiredRides (runRideCleanup s t t).2 t
      = (0, (runRideCleanup s t t).2) := by
    unfold deleteOldExpiredRides
    have hfil : (runRideCleanup s t t).2.rides.filter
        (fun r => r.status == RideStatus.expired &&
          decide (r.updatedAt < t - retentionMinutes)) = [] :=
      List.filter_eq_nil_iff.mpr (fun r hr => by simp [hnostale r hr])
    dsimp only
    rw [hfil]
    rfl
  obtain ⟨u, hu⟩ : ∃ u, (runRideCleanup s t t).2 = u := ⟨_, rfl⟩
  rw [hu] at hmark2 hdel2
  rw [hu]
  unfold runRideCleanup
  rw [hmark2]
  dsimp only
  rw [hdel2]
  exact ⟨rfl, rfl, rfl⟩

/-- The MarkExpired UPDATE never changes a ride's id. -/
theorem markExpired_preserves_id (now : Int) (x : Ride) :
    (if rideExpiryDue now x then { x with status := RideStatus.expired, updatedAt := now }
     else x).id = x.id := by
  split <;> rfl

/-- C10: a ride that the MarkExpired phase (at time tMark) transitions
to 'expired' is never deleted by the DeleteStale phase (at time tDelete)
of the same sweep invocation: MarkExpired stamps `updated_at := tMark`,
DeleteStale removes only 'expired' rides whose `updated_at` is more than
one retention day old, so as long as the delete phase runs within one
retention window of the mark phase the freshly marked row survives. -/
theorem marked_ride_survives_same_sweep
    (s : Store) (tMark tDelete : Int) (r : Ride)
    (hW : WellFormed s)
    (hr : r ∈ s.rides) (hdue : rideExpiryDue tMark r = true)
    (hclock : tDelete ≤ tMark + retentionMinutes) :
    { r with status := RideStatus.expired, updatedAt := tMark }
      ∈ (runRideCleanup s tMark tDelete).2.rides := by
  have hmem : { r with status := RideStatus.expired, updatedAt := tMark }
      ∈ (markExpiredRidesInactive s tMark).2.rides := by
    unfold markExpiredRidesInactive
    dsimp only
    refine List.mem_map.mpr ⟨r, hr, ?_⟩
    rw [if_pos hdue]
  show { r with status := RideStatus.expired, updatedAt := tMark }
      ∈ (deleteOldExpiredRides (markExpiredRidesInactive s tMark).2 tDelete).2.rides
  unfold deleteOldExpiredRides
  dsimp only
  split
  · exact hmem
  · refine List.mem_filter.mpr ⟨hmem, ?_⟩
    have hnotin : ({ r with status := RideStatus.expired, updatedAt := tMark } : Ride).id
        ∉ ((markExpiredRidesInactive s tMark).2.rides.filter
            (fun r' => r'.status == RideStatus.expired &&
              decide (r'.updatedAt < tDelete - retentionMinutes))).map Ride.id := by
      intro hid
      rcases List.mem_map.mp hid with ⟨y, hy, hyid⟩
      rcases List.mem_filter.mp hy with ⟨hymem, hycond⟩
      rcases mem_rides_markExpired hymem with ⟨x, hx, hxy⟩
      have hxid : x.id = r.id := by
        have := markExpired_preserves_id tMark x
        rw [← hxy] at this
        rw [← this, hyid]
      have hxr : x = r := mem_eq_of_key_eq Ride.id hW.1 hx hr hxid
      subst hxr
      rw [if_pos hdue] at hxy
      rw [hxy] at hycond
      simp only [Bool.and_eq_true, beq_iff_eq, decide_eq_true_eq] at hycond
      have : ¬ (tMark < tDelete - retentionMinutes) := by omega
      exact this hycond.2
    cases hc : ((markExpiredRidesInactive s tMark).2.rides.filter
        (fun r' => r'.status == RideStatus.expired &&
          decide (r'.updatedAt < tDelete - retentionMinutes))).map Ride.id
        |>.contains ({ r with status := RideStatus.expired, updatedAt := tMark } : Ride).id
    · rfl
    · exact absurd (List.mem_of_elem_eq_true hc) hnotin

/-- Witness for C10: the active ride with departure 0 is marked at time
150 and survives the DeleteStale phase of the same sweep. -/
theorem marked_ride_survives_same_sweep_witness :
    ({ (⟨1, 1, 0, 3, 0, .active, 0⟩ : Ride) with
        status := RideStatus.expired, updatedAt := (150 : Int) }
      ∈ (runRideCleanup
          { rides := [⟨1, 1, 0, 3, 0, .active, 0⟩], bookings := [],
            blocks := [], nextBookingId := 1 } 150 150).2.rides) :=
  marked_ride_survives_same_sweep _ 150 150 _ (by decide) (by decide)
    (by decide) (by decide)

/-! ## Preservation of the seat-count contract -/

theorem countP_congr_mem {α : Type _} {p q : α → Bool} :
    ∀ {l : List α}, (∀ a ∈ l, p a = q a) → l.countP p = l.countP q := by
  intro l h
  induction l with
  | nil => rfl
  | cons a t ih =>
    rw [List.countP_cons, List.countP_cons, h a (List.mem_cons_self a t),
      ih (fun x hx => h x (List.mem_cons_of_mem a hx))]

theorem countP_map_invariant {α : Type _} {p : α → Bool} {f : α → α} :
    ∀ {l : List α}, (∀ a ∈ l, p (f a) = p a) → (l.map f).countP p = l.countP p := by
  intro l h
  induction l with
  | nil => rfl
  | cons a t ih =>
    rw [List.map_cons, List.countP_cons, List.countP_cons,
      h a (List.mem_cons_self a t),
      ih (fun x hx => h x (List.mem_cons_of_mem a hx))]

theorem find?_booking_props {l : List Booking} {bid : Nat} {b : Booking}
    (h : l.find? (fun b' => b'.id == bid) = some b) :
    b ∈ l ∧ b.id = bid :=
  ⟨List.mem_of_find?_eq_some h, by simpa using List.find?_some h⟩

theorem find?_pending_props {l : List Booking} {bid : Nat} {b : Booking}
    (h : l.find? (fun b' => b'.id == bid && b'.status == .pending) = some b) :
    b ∈ l ∧ b.id = bid ∧ b.status = .pending := by
  refine ⟨List.mem_of_find?_eq_some h, ?_⟩
  have := List.find?_some h
  simpa using this

theorem findRide_props {s : Store} {rid : Nat} {r : Ride}
    (h : findRide s rid = some r) : r ∈ s.rides ∧ r.id = rid := by
  unfold findRide at h
  exact ⟨List.mem_of_find?_eq_some h, by simpa using List.find?_some h⟩

/-- The `book_ride` route either leaves the store untouched or appends
one fresh 'pending' booking row. -/
theorem bookRide_store (s : Store) (rid aid : Nat) :
    (bookRide s rid aid).2 = s ∨
    (bookRide s rid aid).2 =
      { s with
        bookings := s.bookings ++ [⟨s.nextBookingId, rid, aid, .pending⟩],
        nextBookingId := s.nextBookingId + 1 } := by
  unfold bookRide createBooking
  cases hfr : findRide s rid with
  | none => exact Or.inl rfl
  | some ride =>
    dsimp only
    split
    · exact Or.inl rfl
    split
    · exact Or.inl rfl
    split
    · exact Or.inl rfl
    split
    · exact Or.inl rfl
    split
    · exact Or.inl rfl
    split
    · exact Or.inl rfl
    by_cases hc : (s.bookings.any
        (fun b => b.rideId == rid && b.passengerId == aid)) = true
    · rw [if_pos hc]
      exact Or.inl rfl
    · rw [if_neg hc]
      exact Or.inr rfl

theorem seatInvariant_bookRide (s : Store) (rid aid : Nat)
    (hinv : seatInvariant s) : seatInvariant (bookRide s rid aid).2 := by
  rcases bookRide_store s rid aid with h | h <;> rw [h]
  · exact hinv
  · intro r hr
    unfold seatCount
    dsimp only
    rw [List.countP_append]
    have : ([(⟨s.nextBookingId, rid, aid, .pending⟩ : Booking)].countP
        (fun b => b.rideId == r.id &&
          (b.status == BookingStatus.confirmed || b.status == BookingStatus.completed))) = 0 := by
      simp [List.countP_cons]
    rw [this]
    exact hinv r hr


theorem seatInvariant_approveBooking (s : Store) (bid : Nat) (now : Int)
    (hW : WellFormed s) (hinv : seatInvariant s) :
    seatInvariant (approveBooking s bid now).2 := by
  unfold approveBooking
  cases hfb : s.bookings.find? (fun b' => b'.id == bid && b'.status == BookingStatus.pending) with
  | none => exact hinv
  | some b =>
    dsimp only
    cases hfr : findRide s b.rideId with
    | none => exact hinv
    | some r =>
      dsimp only
      split
      · exact hinv
      obtain ⟨hbmem, hbid, hbpending⟩ := find?_pending_props hfb
      obtain ⟨hrmem, hrid⟩ := findRide_props hfr
      subst hbid
      unfold seatInvariant seatCount approveCommit
      dsimp only
      intro r' hr'
      rcases List.mem_map.mp hr' with ⟨x, hx, hgx⟩
      have h1 : (s.bookings.map (fun y =>
            if (y.id == b.id) = true then { y with status := BookingStatus.confirmed }
            else y)).countP
            (fun y => y.rideId == r'.id &&
              (y.status == BookingStatus.confirmed || y.status == BookingStatus.completed))
          + (if (b.rideId == r'.id &&
              (b.status == BookingStatus.confirmed || b.status == BookingStatus.completed)) = true
             then 1 else 0)
        = s.bookings.countP (fun y => y.rideId == r'.id &&
              (y.status == BookingStatus.confirmed || y.status == BookingStatus.completed))
          + (if (b.rideId == r'.id &&
              ((BookingStatus.confirmed == BookingStatus.confirmed : Bool) ||
               (BookingStatus.confirmed == BookingStatus.completed : Bool))) = true
             then 1 else 0) :=
        countP_map_update Booking.id (fun y => { y with status := BookingStatus.confirmed })
          _ s.bookings hW.2.1 b hbmem
      rw [show (if (b.rideId == r'.id &&
            (b.status == BookingStatus.confirmed || b.status == BookingStatus.completed)) = true
          then 1 else 0) = 0 from if_neg (by simp [hbpending])] at h1
      by_cases hxc : (x.id == b.rideId) = true
      · have hxid : x.id = r.id := by
          rw [hrid]
          simpa using hxc
        have hxr : x = r := mem_eq_of_key_eq Ride.id hW.1 hx hrmem hxid
        subst hxr
        rw [if_pos hxc] at hgx
        have hseats : r'.seatsTaken = x.seatsTaken + 1 := by
          rw [← hgx]
          split <;> rfl
        have hid' : r'.id = x.id := by
          rw [← hgx]
          split <;> rfl
        rw [show (if (b.rideId == r'.id &&
              ((BookingStatus.confirmed == BookingStatus.confirmed : Bool) ||
               (BookingStatus.confirmed == BookingStatus.completed : Bool))) = true
            then 1 else 0) = 1 from if_pos (by simp [hid', hxid, ← hrid])] at h1
        have hold := hinv x hx
        unfold seatCount at hold
        rw [← hid'] at hold
        omega
      · rw [if_neg hxc] at hgx
        subst hgx
        rw [show (if (b.rideId == x.id &&
              ((BookingStatus.confirmed == BookingStatus.confirmed : Bool) ||
               (BookingStatus.confirmed == BookingStatus.completed : Bool))) = true
            then 1 else 0) = 0 from if_neg (by
          simp only [Bool.and_eq_true, beq_iff_eq]
          rintro ⟨hcon, -⟩
          exact hxc (by simp [hcon]))] at h1
        have hold := hinv x hx
        unfold seatCount at hold
        omega

theorem seatInvariant_rejectBooking (s : Store) (bid : Nat)
    (hinv : seatInvariant s) : seatInvariant (rejectBooking s bid).2 := by
  unfold seatInvariant seatCount rejectBooking
  dsimp only
  intro r hr
  rw [countP_map_invariant]
  · exact hinv r hr
  · intro a _
    by_cases hc : (a.id == bid && a.status == BookingStatus.pending) = true
    · rw [if_pos hc]
      have hap : a.status = .pending := by
        simp only [Bool.and_eq_true, beq_iff_eq] at hc
        exact hc.2
      simp only [hap]
      cases (a.rideId == r.id) <;> rfl
    · rw [if_neg hc]

theorem seatInvariant_markRideCompleted (s : Store) (rid : Nat) (now : Int)
    (hinv : seatInvariant s) : seatInvariant (markRideCompleted s rid now).2 := by
  unfold seatInvariant seatCount markRideCompleted
  dsimp only
  intro r' hr'
  rcases List.mem_map.mp hr' with ⟨x, hx, hgx⟩
  have hid' : r'.id = x.id := by
    rw [← hgx]
    split <;> rfl
  have hseat : r'.seatsTaken = x.seatsTaken := by
    rw [← hgx]
    split <;> rfl
  rw [hid', hseat, countP_map_invariant]
  · exact hinv x hx
  · intro a _
    by_cases hc : (a.rideId == rid && a.status == BookingStatus.confirmed) = true
    · rw [if_pos hc]
      have hac : a.status = .confirmed := by
        simp only [Bool.and_eq_true, beq_iff_eq] at hc
        exact hc.2
      simp only [hac]
      cases (a.rideId == x.id) <;> rfl
    · rw [if_neg hc]

theorem seatInvariant_markExpired (s : Store) (now : Int)
    (hinv : seatInvariant s) : seatInvariant (markExpiredRidesInactive s now).2 := by
  unfold seatInvariant seatCount markExpiredRidesInactive
  dsimp only
  intro r' hr'
  rcases List.mem_map.mp hr' with ⟨x, hx, hgx⟩
  have hid' : r'.id = x.id := by
    rw [← hgx]
    split <;> rfl
  have hseat : r'.seatsTaken = x.seatsTaken := by
    rw [← hgx]
    split <;> rfl
  rw [hid', hseat]
  exact hinv x hx

theorem countP_filter_booking (l : List Booking) (ids : List Nat) (rid : Nat)
    (hkeep : (ids.contains rid) = false) :
    (l.filter (fun b => !(ids.contains b.rideId))).countP
      (fun b => b.rideId == rid &&
        (b.status == BookingStatus.confirmed || b.status == BookingStatus.completed))
    = l.countP (fun b => b.rideId == rid &&
        (b.status == BookingStatus.confirmed || b.status == BookingStatus.completed)) := by
  rw [List.countP_filter]
  apply countP_congr_mem
  intro a _
  by_cases hp : (a.rideId == rid) = true
  · have har : a.rideId = rid := by simpa using hp
    rw [har, hkeep]
    simp
  · simp [hp]

theorem seatInvariant_deleteStale (s : Store) (now : Int)
    (hinv : seatInvariant s) : seatInvariant (deleteOldExpiredRides s now).2 := by
  unfold deleteOldExpiredRides
  dsimp only
  split
  · exact hinv
  · unfold seatInvariant seatCount
    dsimp only
    intro r' hr'
    rcases List.mem_filter.mp hr' with ⟨hmem, hkeep⟩
    simp only [Bool.not_eq_eq_eq_not, Bool.not_true] at hkeep
    rw [countP_filter_booking _ _ _ hkeep]
    exact hinv r' hmem

theorem seatInvariant_cancelBookingRoute (s : Store) (bid aid : Nat) (now : Int)
    (hW : WellFormed s) (hinv : seatInvariant s) :
    seatInvariant (cancelBookingRoute s bid aid now).2 := by
  unfold cancelBookingRoute
  cases hfb : s.bookings.find? (fun b' => b'.id == bid) with
  | none => exact hinv
  | some b =>
    dsimp only
    cases hfr : findRide s b.rideId with
    | none => exact hinv
    | some r =>
      dsimp only
      split
      · exact hinv
      split
      · exact hinv
      next hstat =>
        have hstat' : b.status = .pending ∨ b.status = .confirmed := by
          rcases Bool.not_eq_true _ ▸ hstat with h
          simp only [Bool.not_eq_eq_eq_not, Bool.not_true, Bool.or_eq_false_iff] at h
          rcases hps : b.status <;> simp_all
        obtain ⟨hbmem, hbid⟩ := find?_booking_props hfb
        obtain ⟨hrmem, hrid⟩ := findRide_props hfr
        subst hbid
        unfold cancelBookingDb
        rw [hfb]
        dsimp only
        rw [hfr]
        dsimp only
        by_cases hconf : (b.status == BookingStatus.confirmed) = true
        · rw [if_pos hconf]
          have hbc : b.status = .confirmed := by simpa using hconf
          unfold seatInvariant seatCount
          dsimp only
          intro r' hr'
          rcases List.mem_map.mp hr' with ⟨x, hx, hgx⟩
          have h1 : (s.bookings.map (fun y =>
                if (y.id == b.id) = true then { y with status := BookingStatus.cancelled }
                else y)).countP
                (fun y => y.rideId == r'.id &&
                  (y.status == BookingStatus.confirmed || y.status == BookingStatus.completed))
              + (if (b.rideId == r'.id &&
                  (b.status == BookingStatus.confirmed || b.status == BookingStatus.completed)) = true
                 then 1 else 0)
            = s.bookings.countP (fun y => y.rideId == r'.id &&
                  (y.status == BookingStatus.confirmed || y.status == BookingStatus.completed))
              + (if (b.rideId == r'.id &&
                  ((BookingStatus.cancelled == BookingStatus.confirmed : Bool) ||
                   (BookingStatus.cancelled == BookingStatus.completed : Bool))) = true
                 then 1 else 0) :=
            countP_map_update Booking.id (fun y => { y with status := BookingStatus.cancelled })
              _ s.bookings hW.2.1 b hbmem
          rw [show (if (b.rideId == r'.id &&
                ((BookingStatus.cancelled == BookingStatus.confirmed : Bool) ||
                 (BookingStatus.cancelled == BookingStatus.completed : Bool))) = true
              then 1 else 0) = 0 from if_neg (by simp)] at h1
          by_cases hxc : (x.id == b.rideId) = true
          · have hxid : x.id = r.id := by
              rw [hrid]
              simpa using hxc
            have hxr : x = r := mem_eq_of_key_eq Ride.id hW.1 hx hrmem hxid
            subst hxr
            rw [if_pos hxc] at hgx
            have hseats : r'.seatsTaken = max 0 (x.seatsTaken - 1) := by
              rw [← hgx]
            have hid' : r'.id = x.id := by
              rw [← hgx]
            rw [show (if (b.rideId == r'.id &&
                  (b.status == BookingStatus.confirmed || b.status == BookingStatus.completed)) = true
                then 1 else 0) = 1 from if_pos (by
              rw [hbc]
              simp [hid', hxid, ← hrid])] at h1
            have hold := hinv x hx
            unfold seatCount at hold
            rw [← hid'] at hold
            omega
          · rw [if_neg hxc] at hgx
            subst hgx
            rw [show (if (b.rideId == x.id &&
                  (b.status == BookingStatus.confirmed || b.status == BookingStatus.completed)) = true
                then 1 else 0) = 0 from if_neg (by
              simp only [Bool.and_eq_true, beq_iff_eq]
              rintro ⟨hcon, -⟩
              exact absurd (by simp [hcon] : (x.id == b.rideId) = true) hxc)] at h1
            have hold := hinv x hx
            unfold seatCount at hold
            omega
        · rw [if_neg hconf]
          have hbp : b.status = .pending := by
            rcases hstat' with h | h
            · exact h
            · exact absurd (by simp [h]) hconf
          unfold seatInvariant seatCount
          dsimp only
          intro r' hr'
          have h1 : (s.bookings.map (fun y =>
                if (y.id == b.id) = true then { y with status := BookingStatus.cancelled }
                else y)).countP
                (fun y => y.rideId == r'.id &&
                  (y.status == BookingStatus.confirmed || y.status == BookingStatus.completed))
              + (if (b.rideId == r'.id &&
                  (b.status == BookingStatus.confirmed || b.status == BookingStatus.completed)) = true
                 then 1 else 0)
            = s.bookings.countP (fun y => y.rideId == r'.id &&
                  (y.status == BookingStatus.confirmed || y.status == BookingStatus.completed))
              + (if (b.rideId == r'.id &&
                  ((BookingStatus.cancelled == BookingStatus.confirmed : Bool) ||
                   (BookingStatus.cancelled == BookingStatus.completed : Bool))) = true
                 then 1 else 0) :=
            countP_map_update Booking.id (fun y => { y with status := BookingStatus.cancelled })
              _ s.bookings hW.2.1 b hbmem
          rw [show (if (b.rideId == r'.id &&
                ((BookingStatus.cancelled == BookingStatus.confirmed : Bool) ||
                 (BookingStatus.cancelled == BookingStatus.completed : Bool))) = true
              then 1 else 0) = 0 from if_neg (by simp)] at h1
          rw [show (if (b.rideId == r'.id &&
                (b.status == BookingStatus.confirmed || b.status == BookingStatus.completed)) = true
              then 1 else 0) = 0 from if_neg (by simp [hbp])] at h1
          have hold := hinv r' hr'
          unfold seatCount at hold
          omega

/-- `Database.cancel_booking` preserves the seat-count contract as long
as the booking it hits is not 'completed': pending, cancelled and
rejected targets touch neither the count nor seats_taken, and a
confirmed target decrements both together.  (A 'completed' target is
the gap: it leaves the count but not the counter — see the C9
counterexample.) -/
theorem seatInvariant_cancelBookingDb (s : Store) (bid : Nat) (now : Int)
    (hW : WellFormed s) (hinv : seatInvariant s)
    (hnc : ∀ x ∈ s.bookings, x.id = bid → x.status ≠ BookingStatus.completed) :
    seatInvariant (cancelBookingDb s bid now).2 := by
  unfold cancelBookingDb
  cases hfb : s.bookings.find? (fun b' => b'.id == bid) with
  | none => exact hinv
  | some b =>
    dsimp only
    cases hfr : findRide s b.rideId with
    | none => exact hinv
    | some r =>
      dsimp only
      obtain ⟨hbmem, hbid⟩ := find?_booking_props hfb
      obtain ⟨hrmem, hrid⟩ := findRide_props hfr
      have hbnc : b.status ≠ BookingStatus.completed := hnc b hbmem hbid
      subst hbid
      by_cases hconf : (b.status == BookingStatus.confirmed) = true
      · rw [if_pos hconf]
        have hbc : b.status = .confirmed := by simpa using hconf
        unfold seatInvariant seatCount
        dsimp only
        intro r' hr'
        rcases List.mem_map.mp hr' with ⟨x, hx, hgx⟩
        have h1 : (s.bookings.map (fun y =>
              if (y.id == b.id) = true then { y with status := BookingStatus.cancelled }
              else y)).countP
              (fun y => y.rideId == r'.id &&
                (y.status == BookingStatus.confirmed || y.status == BookingStatus.completed))
            + (if (b.rideId == r'.id &&
                (b.status == BookingStatus.confirmed || b.status == BookingStatus.completed)) = true
               then 1 else 0)
          = s.bookings.countP (fun y => y.rideId == r'.id &&
                (y.status == BookingStatus.confirmed || y.status == BookingStatus.completed))
            + (if (b.rideId == r'.id &&
                ((BookingStatus.cancelled == BookingStatus.confirmed : Bool) ||
                 (BookingStatus.cancelled == BookingStatus.completed : Bool))) = true
               then 1 else 0) :=
          countP_map_update Booking.id (fun y => { y with status := BookingStatus.cancelled })
            _ s.bookings hW.2.1 b hbmem
        rw [show (if (b.rideId == r'.id &&
              ((BookingStatus.cancelled == BookingStatus.confirmed : Bool) ||
               (BookingStatus.cancelled == BookingStatus.completed : Bool))) = true
            then 1 else 0) = 0 from if_neg (by simp)] at h1
        by_cases hxc : (x.id == b.rideId) = true
        · have hxid : x.id = r.id := by
            rw [hrid]
            simpa using hxc
          have hxr : x = r := mem_eq_of_key_eq Ride.id hW.1 hx hrmem hxid
          subst hxr
          rw [if_pos hxc] at hgx
          have hseats : r'.seatsTaken = max 0 (x.seatsTaken - 1) := by
            rw [← hgx]
          have hid' : r'.id = x.id := by
            rw [← hgx]
          rw [show (if (b.rideId == r'.id &&
                (b.status == BookingStatus.confirmed || b.status == BookingStatus.completed)) = true
              then 1 else 0) = 1 from if_pos (by
            rw [hbc]
            simp [hid', hxid, ← hrid])] at h1
          have hold := hinv x hx
          unfold seatCount at hold
          rw [← hid'] at hold
          omega
        · rw [if_neg hxc] at hgx
          subst hgx
          rw [show (if (b.rideId == x.id &&
                (b.status == BookingStatus.confirmed || b.status == BookingStatus.completed)) = true
              then 1 else 0) = 0 from if_neg (by
            simp only [Bool.and_eq_true, beq_iff_eq]
            rintro ⟨hcon, -⟩
            exact absurd (by simp [hcon] : (x.id == b.rideId) = true) hxc)] at h1
          have hold := hinv x hx
          unfold seatCount at hold
          omega
      · rw [if_neg hconf]
        unfold seatInvariant seatCount
        dsimp only
        intro r' hr'
        have h1 : (s.bookings.map (fun y =>
              if (y.id == b.id) = true then { y with status := BookingStatus.cancelled }
              else y)).countP
              (fun y => y.rideId == r'.id &&
                (y.status == BookingStatus.confirmed || y.status == BookingStatus.completed))
            + (if (b.rideId == r'.id &&
                (b.status == BookingStatus.confirmed || b.status == BookingStatus.completed)) = true
               then 1 else 0)
          = s.bookings.countP (fun y => y.rideId == r'.id &&
                (y.status == BookingStatus.confirmed || y.status == BookingStatus.completed))
            + (if (b.rideId == r'.id &&
                ((BookingStatus.cancelled == BookingStatus.confirmed : Bool) ||
                 (BookingStatus.cancelled == BookingStatus.completed : Bool))) = true
               then 1 else 0) :=
          countP_map_update Booking.id (fun y => { y with status := BookingStatus.cancelled })
            _ s.bookings hW.2.1 b hbmem
        rw [show (if (b.rideId == r'.id &&
              ((BookingStatus.cancelled == BookingStatus.confirmed : Bool) ||
               (BookingStatus.cancelled == BookingStatus.completed : Bool))) = true
            then 1 else 0) = 0 from if_neg (by simp)] at h1
        rw [show (if (b.rideId == r'.id &&
              (b.status == BookingStatus.confirmed || b.status == BookingStatus.completed)) = true
            then 1 else 0) = 0 from if_neg (by
          simp only [Bool.and_eq_true, Bool.or_eq_true, beq_iff_eq]
          rintro ⟨-, h | h⟩
          · exact hconf (by simp [h])
          · exact hbnc h)] at h1
        have hold := hinv r' hr'
        unfold seatCount at hold
        omega

theorem seatInvariant_apiCancelBooking (s : Store) (bid aid : Nat) (adm : Bool)
    (now : Int) (hW : WellFormed s) (hinv : seatInvariant s)
    (hnc : ∀ x ∈ s.bookings, x.id = bid → x.status ≠ BookingStatus.completed) :
    seatInvariant (apiCancelBooking s bid aid adm now).2 := by
  unfold apiCancelBooking
  cases hfb : s.bookings.find? (fun b' => b'.id == bid) with
  | none => exact hinv
  | some b =>
    dsimp only
    cases hfr : findRide s b.rideId with
    | none => exact hinv
    | some r =>
      dsimp only
      split
      · exact hinv
      · have hdb := seatInvariant_cancelBookingDb s bid now hW hinv hnc
        rcases hres : cancelBookingDb s bid now with ⟨ok, s1⟩
        rw [hres] at hdb
        cases ok
        · exact hdb
        · exact hdb

/-- C1 (amended): for every booking and ride-lifecycle operation except
CancelRide, and except a CancelBooking issued through the unguarded API
endpoint against a 'completed' booking, a well-formed store in which
every ride's seats_taken equals its confirmed-plus-completed booking
count still satisfies that invariant after the operation.  The two
exceptions break it: CancelRide cancels confirmed bookings without
adjusting seats_taken (see `cancel_ride_breaks_seat_invariant`), and
the API CancelBooking rewrites a 'completed' booking to 'cancelled'
with no seat bookkeeping (see `api_cancel_exits_terminal_status`). -/
theorem seat_invariant_preserved_except_cancel_ride
    (s : Store) (now : Int) (op : Op)
    (hW : WellFormed s) (hinv : seatInvariant s)
    (hop : ∀ rid, op ≠ Op.cancelRide rid)
    (hapi : ∀ bid aid adm, op = Op.apiCancelBooking bid aid adm →
      ∀ x ∈ s.bookings, x.id = bid → x.status ≠ BookingStatus.completed) :
    seatInvariant (applyOp now op s) := by
  cases op with
  | requestBooking rid aid => exact seatInvariant_bookRide s rid aid hinv
  | approveBooking bid => exact seatInvariant_approveBooking s bid now hW hinv
  | rejectBooking bid => exact seatInvariant_rejectBooking s bid hinv
  | cancelBooking bid aid => exact seatInvariant_cancelBookingRoute s bid aid now hW hinv
  | apiCancelBooking bid aid adm =>
    exact seatInvariant_apiCancelBooking s bid aid adm now hW hinv (hapi bid aid adm rfl)
  | cancelRide rid => exact absurd rfl (hop rid)
  | completeRide rid => exact seatInvariant_markRideCompleted s rid now hinv
  | cleanupSweep =>
    exact seatInvariant_deleteStale _ now (seatInvariant_markExpired s now hinv)

/-- Witness for the amended C1: the passenger cancels their confirmed
(not completed) booking through the API endpoint on `cancelRideStore`;
the invariant survives. -/
theorem seat_invariant_preserved_witness :
    WellFormed cancelRideStore ∧ seatInvariant cancelRideStore ∧
    (∀ x ∈ cancelRideStore.bookings, x.id = 1 → x.status ≠ BookingStatus.completed) ∧
    seatInvariant (applyOp 0 (Op.apiCancelBooking 1 2 false) cancelRideStore) :=
  ⟨by decide, by decide, by decide,
   seat_invariant_preserved_except_cancel_ride cancelRideStore 0
     (Op.apiCancelBooking 1 2 false) (by decide) (by decide)
     (fun rid h => Op.noConfusion h)
     (by
       intro bid aid adm h
       injection h with h1 h2 h3
       subst h1
       decide)⟩

/-! ## Terminal booking statuses are never left -/

/-- A status-rewriting UPDATE whose WHERE condition only matches
non-terminal rows never changes a terminal booking's status. -/
theorem status_update_frozen
    (l : List Booking) (hP : l.Pairwise (fun x y => x.id ≠ y.id))
    (cond : Booking → Bool) (st : BookingStatus)
    (hcond : ∀ x ∈ l, cond x = true → isTerminalBooking x.status = false)
    (b : Booking) (hb : b ∈ l) (ht : isTerminalBooking b.status = true) :
    ∀ b' ∈ l.map (fun x => if cond x then { x with status := st } else x),
      b'.id = b.id → b'.status = b.status := by
  intro b' hb' hid
  rcases List.mem_map.mp hb' with ⟨x, hx, hgx⟩
  by_cases hc : cond x = true
  · rw [if_pos hc] at hgx
    have hxid : x.id = b.id := by
      rw [← hgx] at hid
      exact hid
    have hxb : x = b := mem_eq_of_key_eq Booking.id hP hx hb hxid
    subst hxb
    rw [hcond x hx hc] at ht
    cases ht
  · rw [if_neg hc] at hgx
    subst hgx
    exact congrArg Booking.status (mem_eq_of_key_eq Booking.id hP hx hb hid)

/-- Store with a 'completed' (terminal) booking of passenger 2 on the
completed ride 1. -/
def apiCancelStore : Store :=
  { rides := [⟨1, 10, 0, 2, 1, .completed, 0⟩],
    bookings := [⟨1, 1, 2, .completed⟩],
    blocks := [], nextBookingId := 2 }

/-- C9 counterexample: CancelBooking through the API endpoint, invoked
by the passenger on their 'completed' booking, rewrites it to
'cancelled' — a transition out of a terminal status.
`api_cancel_booking` checks only that the actor is the passenger or an
admin, and `Database.cancel_booking` sets status = 'cancelled'
unconditionally. -/
theorem api_cancel_exits_terminal_status :
    WellFormed apiCancelStore ∧
    (⟨1, 1, 2, .completed⟩ : Booking) ∈ apiCancelStore.bookings ∧
    isTerminalBooking BookingStatus.completed = true ∧
    findBooking (applyOp 0 (Op.apiCancelBooking 1 2 false) apiCancelStore) 1
      = some ⟨1, 1, 2, .cancelled⟩ := by
  decide

/-- C9 (amended): no operation other than CancelBooking through the
unguarded API endpoint transitions a booking out of a terminal status
('rejected', 'cancelled', 'completed'): after any of RequestBooking,
ApproveBooking, RejectBooking, the status-guarded web CancelBooking,
CancelRide, CompleteRide or the cleanup sweep, every surviving booking
row carrying the terminal booking's id still carries its old status
(the cleanup sweep may delete the row outright, which is not a status
transition).  The API CancelBooking is the exception: it re-checks no
status and cancels 'completed' and 'rejected' bookings. -/
theorem terminal_bookings_frozen
    (s : Store) (now : Int) (op : Op)
    (hW : WellFormed s)
    (hop : ∀ bid aid adm, op ≠ Op.apiCancelBooking bid aid adm)
    (b : Booking) (hb : b ∈ s.bookings) (ht : isTerminalBooking b.status = true) :
    ((applyOp now op s).bookings.all
      (fun b' => !(b'.id == b.id) || b'.status == b.status)) = true := by
  have hsame : ∀ b' ∈ s.bookings, b'.id = b.id → b'.status = b.status :=
    fun b' hb' hid => congrArg Booking.status (mem_eq_of_key_eq Booking.id hW.2.1 hb' hb hid)
  have hmain : ∀ b' ∈ (applyOp now op s).bookings, b'.id = b.id → b'.status = b.status := by
    cases op with
    | requestBooking rid aid =>
      dsimp only [applyOp]
      rcases bookRide_store s rid aid with h | h <;> rw [h]
      · exact hsame
      · dsimp only
        intro b' hb' hid
        rcases List.mem_append.mp hb' with h1 | h1
        · exact hsame b' h1 hid
        · rcases List.mem_singleton.mp h1 with rfl
          have hlt := hW.2.2 b hb
          have hnid : s.nextBookingId = b.id := hid
          omega
    | approveBooking bid =>
      dsimp only [applyOp]
      unfold approveBooking
      cases hfb : s.bookings.find? (fun y => y.id == bid && y.status == BookingStatus.pending) with
      | none => exact hsame
      | some bf =>
        dsimp only
        cases hfr : findRide s bf.rideId with
        | none => exact hsame
        | some r =>
          dsimp only
          split
          · exact hsame
          · obtain ⟨hbfmem, hbfid, hbfpend⟩ := find?_pending_props hfb
            unfold approveCommit
            dsimp only
            refine status_update_frozen s.bookings hW.2.1 _ _ ?_ b hb ht
            intro x hx hcx
            have hxid : x.id = bf.id := by
              rw [hbfid]
              simpa using hcx
            have hxbf : x = bf := mem_eq_of_key_eq Booking.id hW.2.1 hx hbfmem hxid
            rw [hxbf, hbfpend]
            rfl
    | rejectBooking bid =>
      dsimp only [applyOp]
      unfold rejectBooking
      dsimp only
      refine status_update_frozen s.bookings hW.2.1 _ _ ?_ b hb ht
      intro x hx hcx
      have : x.status = .pending := by
        simp only [Bool.and_eq_true, beq_iff_eq] at hcx
        exact hcx.2
      rw [this]
      rfl
    | cancelBooking bid aid =>
      dsimp only [applyOp]
      unfold cancelBookingRoute
      cases hfb : s.bookings.find? (fun y => y.id == bid) with
      | none => exact hsame
      | some b0 =>
        dsimp only
        cases hfr : findRide s b0.rideId with
        | none => exact hsame
        | some r =>
          dsimp only
          split
          · exact hsame
          split
          · exact hsame
          next hstat =>
            obtain ⟨hb0mem, hb0id⟩ := find?_booking_props hfb
            have hstat' : b0.status = .pending ∨ b0.status = .confirmed := by
              rcases h0 : b0.status <;> simp_all
            have hcond : ∀ x ∈ s.bookings, (x.id == bid) = true →
                isTerminalBooking x.status = false := by
              intro x hx hcx
              have hxid : x.id = b0.id := by
                rw [hb0id]
                simpa using hcx
              have hxb0 : x = b0 := mem_eq_of_key_eq Booking.id hW.2.1 hx hb0mem hxid
              rw [hxb0]
              rcases hstat' with h | h <;> rw [h] <;> rfl
            unfold cancelBookingDb
            rw [hfb]
            dsimp only
            rw [hfr]
            dsimp only
            by_cases hconf : (b0.status == BookingStatus.confirmed) = true
            · rw [if_pos hconf]
              exact status_update_frozen s.bookings hW.2.1 _ _ hcond b hb ht
            · rw [if_neg hconf]
              exact status_update_frozen s.bookings hW.2.1 _ _ hcond b hb ht
    | apiCancelBooking bid aid adm => exact absurd rfl (hop bid aid adm)
    | cancelRide rid =>
      dsimp only [applyOp]
      unfold cancelRide
      dsimp only
      refine status_update_frozen s.bookings hW.2.1 _ _ ?_ b hb ht
      intro x hx hcx
      simp only [Bool.and_eq_true, Bool.or_eq_true, beq_iff_eq] at hcx
      rcases hcx.2 with h | h <;> rw [h] <;> rfl
    | completeRide rid =>
      dsimp only [applyOp]
      unfold markRideCompleted
      dsimp only
      refine status_update_frozen s.bookings hW.2.1 _ _ ?_ b hb ht
      intro x hx hcx
      have : x.status = .confirmed := by
        simp only [Bool.and_eq_true, beq_iff_eq] at hcx
        exact hcx.2
      rw [this]
      rfl
    | cleanupSweep =>
      dsimp only [applyOp]
      intro b' hb' hid
      have hsub : b' ∈ s.bookings := by
        revert hb'
        show b' ∈ (deleteOldExpiredRides (markExpiredRidesInactive s now).2 now).2.bookings → _
        unfold deleteOldExpiredRides
        dsimp only
        split
        · exact fun h => h
        · exact fun h => (List.mem_filter.mp h).1
      exact hsame b' hsub hid
  rw [List.all_eq_true]
  intro b' hb'
  by_cases hc : (b'.id == b.id) = true
  · have := hmain b' hb' (by simpa using hc)
    simp [this]
  · simp only [Bool.or_eq_true, Bool.not_eq_eq_eq_not, Bool.not_true]
    left
    simpa using hc

/-- Witness for the amended C9: rejecting booking 1 — already
'completed' — leaves its status untouched (the reject UPDATE only
matches 'pending' rows). -/
theorem terminal_bookings_frozen_witness :
    WellFormed apiCancelStore ∧
    (⟨1, 1, 2, .completed⟩ : Booking) ∈ apiCancelStore.bookings ∧
    isTerminalBooking (⟨1, 1, 2, .completed⟩ : Booking).status = true ∧
    ((applyOp 0 (Op.rejectBooking 1) apiCancelStore).bookings.all
      (fun b' => !(b'.id == (⟨1, 1, 2, .completed⟩ : Booking).id)
        || b'.status == (⟨1, 1, 2, .completed⟩ : Booking).status)) = true :=
  ⟨by decide, by decide, by decide,
   terminal_bookings_frozen apiCancelStore 0 (Op.rejectBooking 1) (by decide)
     (fun bid aid adm h => Op.noConfusion h) _ (by decide) (by decide)⟩
